import Mathlib

/-!
Verification of pos-system: the request gate of `cmd/pos-system/main.go` and the
data model of `models.go`.

The development embeds

* `authHandler` (main.go, lines 58-81) over an explicit gin context that records
  every `AbortWithStatus` and `Next` call the handler makes;
* the route table that `main` builds (main.go, lines 150-258), with gin's
  `Use` / `Handle` / `Any` registration and its abort-stops-the-chain dispatch;
* the records of `models.go` with their machine-integer field widths;
* the fulfilment state machine, the cancel operation and the station router,
  whose bodies live in package `core`, outside the two files embedded here, and
  are modelled from the specification.
-/

namespace PosSystem

/-! ## Go values the handler touches -/

/-- Dynamic value of a Go `interface{}` as `session.Get` returns it: the nil
interface, a string, or a value of some other dynamic type (identified by a tag). -/
inductive Iface where
  | nil
  | str (s : String)
  | other (tag : Nat)
  deriving DecidableEq, Repr

/-- Go comparison `v == ""` of an interface value with a string constant: true
only when the dynamic type is `string` and the value is empty. -/
def Iface.eqEmptyString : Iface → Bool
  | .str s => s == ""
  | _ => false

/-- Go type assertion `v.(string)`; `none` stands for the run-time panic raised
when the dynamic type is not `string` (the nil interface included). -/
def Iface.assertString : Iface → Option String
  | .str s => some s
  | _ => none

/-- The part of `core.UserStruct` that `authHandler` reads. The declaration is in
package `core`; only the boolean field `IsAdmin` is used by main.go. -/
structure UserStruct where
  IsAdmin : Bool
  deriving DecidableEq, Repr

/-- Go zero value `core.UserStruct{}`. -/
def UserStruct.zero : UserStruct := { IsAdmin := false }

/-- Behaviour of `json.Unmarshal(data, &user)` for `user : *core.UserStruct`:
given the text and the current pointer (`none` is the nil pointer) it yields the
pointer afterwards. The returned error is discarded by the caller. The decoder
is library code and is kept as a parameter of the embedding. -/
abbrev Unmarshal := String → Option UserStruct → Option UserStruct

/-- Constant `http.StatusForbidden`. -/
def StatusForbidden : Nat := 403

/-! ## gin context -/

/-- Calls a handler makes on its `*gin.Context`. -/
inductive Call where
  | AbortWithStatus (code : Nat)
  | Next
  deriving DecidableEq, Repr

/-- The slice of `*gin.Context` visible to `authHandler`: what
`sessions.Default(c).Get("user")` returns, the `x-auth-token` request header
(`none` when the header is absent) and the log of control calls made so far. -/
structure Context where
  userCookie : Iface
  xAuthToken : Option String
  calls : List Call
  deriving DecidableEq, Repr

/-- A fresh context for an incoming request. -/
def Context.new (userCookie : Iface) (xAuthToken : Option String) : Context :=
  { userCookie := userCookie, xAuthToken := xAuthToken, calls := [] }

/-- Method `c.GetHeader("x-auth-token")`: the empty string when the header is absent. -/
def Context.GetHeader (c : Context) : String :=
  c.xAuthToken.getD ""

/-- Method `c.AbortWithStatus(code)`: the call is recorded. -/
def Context.AbortWithStatus (c : Context) (code : Nat) : Context :=
  { c with calls := c.calls ++ [Call.AbortWithStatus code] }

/-- Method `c.Next()`: the call is recorded. -/
def Context.Next (c : Context) : Context :=
  { c with calls := c.calls ++ [Call.Next] }

/-- Method `c.IsAborted()`: some earlier call aborted the chain. -/
def Context.IsAborted (c : Context) : Bool :=
  c.calls.any fun k => match k with
    | .AbortWithStatus _ => true
    | .Next => false

/-! ## authHandler (main.go, lines 58-81) -/

/-- The closure returned by `authHandler(isAdmin, configAuthToken)`, run on a
context. `none` is a run-time panic (failed type assertion). -/
def authHandler (unmarshal : Unmarshal) (isAdmin : Bool) (configAuthToken : String)
    (c : Context) : Option Context :=
  let userCookie := c.userCookie
  let xAuthToken := c.GetHeader
  if (userCookie == Iface.nil || userCookie.eqEmptyString) && xAuthToken != configAuthToken then
    some (c.AbortWithStatus StatusForbidden)
  else
    if isAdmin && xAuthToken != configAuthToken then
      match userCookie.assertString with
      | none => none
      | some text =>
        match unmarshal text (some UserStruct.zero) with
        | none => some (c.AbortWithStatus StatusForbidden)
        | some user =>
          if !user.IsAdmin then some (c.AbortWithStatus StatusForbidden)
          else some c.Next
    else
      some c.Next

/-- The admission condition written the way the contract words it. -/
def admits (unmarshal : Unmarshal) (isAdmin : Bool) (configAuthToken : String)
    (c : Context) : Prop :=
  c.GetHeader = configAuthToken ∨
    (c.userCookie ≠ Iface.nil ∧ c.userCookie ≠ Iface.str "" ∧
      (isAdmin = true →
        ∃ text user, c.userCookie = Iface.str text ∧
          unmarshal text (some UserStruct.zero) = some user ∧ user.IsAdmin = true))

/-- A session value that is nil or a string. -/
def Iface.nilOrString (v : Iface) : Prop :=
  v = Iface.nil ∨ ∃ s, v = Iface.str s

/-- A decoder used in examples: the text `admin` decodes to an administrator,
`null` to the nil pointer, `user` to a non-administrator, anything else is
rejected and leaves the target as it was. -/
def sampleUnmarshal : Unmarshal := fun text cur =>
  if text = "admin" then some { IsAdmin := true }
  else if text = "user" then some { IsAdmin := false }
  else if text = "null" then none
  else cur

/-! ## gin routing: registration and dispatch -/

/-- A handler placed in a gin chain: the closure `authHandler(isAdmin,
adminAuthToken)`, or any other handler, identified by the expression that
main.go registers (a method value of a `core` handler struct, a middleware
constructor, or a function literal, named after its route). -/
inductive HandlerFunc where
  | authHandler (isAdmin : Bool)
  | named (name : String)
  deriving DecidableEq, Repr

/-- One entry of the route table: `middleware` is the group chain in force when
the route was registered, `handlers` the handlers passed at registration. -/
structure Route where
  method : String
  path : String
  middleware : List HandlerFunc
  handlers : List HandlerFunc
  deriving DecidableEq, Repr

/-- The chain gin runs for a route (`combineHandlers`). -/
def Route.chain (r : Route) : List HandlerFunc :=
  r.middleware ++ r.handlers

/-- The state of `*gin.Engine` that registration changes. -/
structure Engine where
  Handlers : List HandlerFunc
  routes : List Route
  deriving DecidableEq, Repr

/-- Constructor `gin.Default()`: an engine with the Logger and Recovery middleware. -/
def Engine.Default : Engine :=
  { Handlers := [.named "gin.Logger", .named "gin.Recovery"], routes := [] }

/-- Method `router.Use(mw)`: the middleware joins the group chain. -/
def Engine.Use (e : Engine) (mw : HandlerFunc) : Engine :=
  { e with Handlers := e.Handlers ++ [mw] }

/-- Method `router.Handle(method, path, handlers...)`: the route is added with
the group chain in force in front of its handlers. -/
def Engine.Handle (e : Engine) (method path : String) (hs : List HandlerFunc) : Engine :=
  { e with routes := e.routes ++
      [{ method := method, path := path, middleware := e.Handlers, handlers := hs }] }

/-- Method `router.GET`. -/
def Engine.GET (e : Engine) (path : String) (hs : List HandlerFunc) : Engine :=
  e.Handle "GET" path hs

/-- Method `router.POST`. -/
def Engine.POST (e : Engine) (path : String) (hs : List HandlerFunc) : Engine :=
  e.Handle "POST" path hs

/-- Method `router.PUT`. -/
def Engine.PUT (e : Engine) (path : String) (hs : List HandlerFunc) : Engine :=
  e.Handle "PUT" path hs

/-- Method `router.DELETE`. -/
def Engine.DELETE (e : Engine) (path : String) (hs : List HandlerFunc) : Engine :=
  e.Handle "DELETE" path hs

/-- The methods `router.Any` registers. -/
def anyMethods : List String :=
  ["GET", "POST", "PUT", "PATCH", "HEAD", "OPTIONS", "DELETE", "CONNECT", "TRACE"]

/-- Method `router.Any(path, handlers...)`. -/
def Engine.Any (e : Engine) (path : String) (hs : List HandlerFunc) : Engine :=
  anyMethods.foldl (fun acc m => acc.Handle m path hs) e

/-- The router as `main` leaves it just before `router.Run` (main.go, lines
150-258). Every `authHandler(b, adminAuthToken)` call is `.authHandler b`. -/
def mainRouter : Engine :=
  Engine.Default
    |>.Use (.named "sessions.Sessions")
    |>.Any "/" [.named "func:/"]
    |>.GET "/admin" [.authHandler true, .named "func:/admin"]
    |>.Use (.named "static.Serve:/")
    |>.Use (.named "static.Serve:/static")
    |>.POST "/login" [.named "userHandlers.Login"]
    |>.GET "/login" [.named "userHandlers.LoginPage"]
    |>.GET "/logout" [.named "userHandlers.Logout"]
    |>.GET "/api/user" [.authHandler false, .named "userHandlers.GetLoggedInUser"]
    |>.POST "/api/user" [.authHandler true, .named "userHandlers.Create"]
    |>.DELETE "/api/user/:userId" [.authHandler true, .named "userHandlers.Delete"]
    |>.GET "/api/users" [.authHandler true, .named "userHandlers.List"]
    |>.GET "/api/orders/earnings" [.authHandler true, .named "orderHandlers.GetTotalEarnings"]
    |>.GET "/api/orders/earnings/:day" [.authHandler true, .named "orderHandlers.EarningsPerDay"]
    |>.GET "/api/orders/totals/export"
        [.authHandler true, .named "orderHandlers.ExportTotalEarnings"]
    |>.GET "/api/orders" [.authHandler false, .named "orderHandlers.GetOrders"]
    |>.GET "/api/orders/past_year" [.authHandler true, .named "orderHandlers.OrdersPastYear"]
    |>.POST "/api/order" [.authHandler false, .named "orderHandlers.CreateOrder"]
    |>.GET "/api/order/:orderId" [.authHandler false, .named "orderHandlers.FetchOrder"]
    |>.GET "/api/order/:orderId/receipt/:printerId"
        [.authHandler false, .named "orderHandlers.PrintReceipt"]
    |>.GET "/api/order/:orderId/pub" [.named "orderHandlers.PublicOrder"]
    |>.GET "/api/order/:orderId/qrcode" [.authHandler false, .named "orderHandlers.OrderQRCode"]
    |>.PUT "/api/order/:orderId/product/:productId/:state"
        [.authHandler false, .named "orderHandlers.UpdateFulfilled"]
    |>.DELETE "/api/order/:orderId" [.authHandler true, .named "orderHandlers.ToggleOrder"]
    |>.POST "/api/product" [.authHandler true, .named "productHandlers.CreateProduct"]
    |>.GET "/api/products" [.authHandler false, .named "productHandlers.ListProducts"]
    |>.PUT "/api/product/:productId" [.authHandler false, .named "productHandlers.UpdateProduct"]
    |>.DELETE "/api/product/:productId"
        [.authHandler false, .named "productHandlers.ToggleDiscontinued"]
    |>.PUT "/api/product/type" [.authHandler true, .named "productHandlers.CreateProductType"]
    |>.GET "/api/product/types" [.named "productHandlers.ListProductTypes"]
    |>.POST "/api/station" [.authHandler true, .named "stationHandlers.CreateStation"]
    |>.POST "/api/station/:stationId/:productId"
        [.authHandler true, .named "stationHandlers.AddProductToStation"]
    |>.DELETE "/api/station/:stationId/:productId"
        [.authHandler true, .named "stationHandlers.RemoveProductFromStation"]
    |>.GET "/api/station/:stationId" [.authHandler false, .named "stationHandlers.Station"]
    |>.DELETE "/api/station/:stationId" [.authHandler true, .named "stationHandlers.Delete"]
    |>.GET "/api/stations" [.authHandler false, .named "stationHandlers.Stations"]
    |>.GET "/api/printers" [.named "func:/api/printers"]
    |>.GET "/api/products/ws" [.authHandler false, .named "productHandlers.ProductUpdateWS"]
    |>.GET "/api/products/stream"
        [.authHandler false, .named "productHandlers.ProductUpdateStream"]
    |>.GET "/api/orders/stream" [.authHandler false, .named "orderHandlers.OrderStream"]

/-- A route path lies under `/api`. -/
def underApi (path : String) : Bool :=
  "/api/".data.isPrefixOf path.data

/-- The handler is some `authHandler(_, adminAuthToken)` closure. -/
def HandlerFunc.isAuth : HandlerFunc → Bool
  | .authHandler _ => true
  | .named _ => false

/-- What a handler other than `authHandler` does with the chain: abort with a
status, call `Next`, return without either, or panic. -/
inductive Step where
  | abort (code : Nat)
  | next
  | ret
  | panic
  deriving DecidableEq, Repr

/-- Behaviour of the handlers whose bodies are outside main.go, by name. -/
abbrev Behaviour := String → Context → Step

/-- Run one handler of a chain on the context (`none`: it panicked). -/
def runHandler (beh : Behaviour) (unmarshal : Unmarshal) (configAuthToken : String)
    (h : HandlerFunc) (c : Context) : Option Context :=
  match h with
  | .authHandler isAdmin => authHandler unmarshal isAdmin configAuthToken c
  | .named name =>
    match beh name c with
    | .abort code => some (c.AbortWithStatus code)
    | .next => some c.Next
    | .ret => some c
    | .panic => none

/-- The handlers gin invokes for a request, in order. gin runs the chain from
its head; after a handler returns, the following handler runs unless the
context was aborted (`Abort` moves the index past the end), a `Next` call
merely running the rest of the chain earlier; a panic unwinds the chain. -/
def runChain (beh : Behaviour) (unmarshal : Unmarshal) (configAuthToken : String) :
    List HandlerFunc → Context → List HandlerFunc
  | [], _ => []
  | h :: rest, c =>
    match runHandler beh unmarshal configAuthToken h c with
    | none => [h]
    | some c1 =>
      if c1.IsAborted then [h]
      else h :: runChain beh unmarshal configAuthToken rest c1

/-- The three push endpoints' handlers. -/
def pushHandlers : List HandlerFunc :=
  [.named "productHandlers.ProductUpdateWS", .named "productHandlers.ProductUpdateStream",
   .named "orderHandlers.OrderStream"]

/-- A behaviour used in examples: every handler outside main.go calls `Next`. -/
def passBehaviour : Behaviour := fun _ _ => Step.next

/-! ## models.go -/

/-- Number of values of Go `uint8`. -/
def uint8Size : Nat := 2 ^ 8

/-- Number of values of Go `uint64`. -/
def uint64Size : Nat := 2 ^ 64

/-- Go conversion `uint8(x)` of an unsigned integer: the value modulo 2^8. -/
def toUint8 (x : Nat) : Nat := x % uint8Size

/-- Record `Product` of models.go (the embedded `gorm.Model`, the timestamps, the
`float64` price and the nested `ProductType` are left out). `ID` and
`ProductTypeID` are `uint64`, `Discontinued` and `SoldOut` are `uint8`. -/
structure Product where
  ID : Nat
  Name : String
  Discontinued : Nat
  ProductTypeID : Nat
  SoldOut : Nat
  deriving DecidableEq, Repr

/-- Record `OrderProduct` of models.go: `ID`, `ProductID`, `OrderID` are `uint64`,
`Fulfilled` is `uint8` with default 0. -/
structure OrderProduct where
  ID : Nat
  ProductID : Nat
  OrderID : Nat
  Fulfilled : Nat
  deriving DecidableEq, Repr

/-- Record `Order` of models.go: `ID` is `uint64`, `Cancelled` is `uint8`; there is no
field for an aggregate status. -/
structure Order where
  ID : Nat
  Cancelled : Nat
  OrderProducts : List OrderProduct
  deriving DecidableEq, Repr

/-- Record `User` of models.go: `ID` is `uint64`, `StationID` is `uint8`. -/
structure User where
  ID : Nat
  Username : String
  Password : String
  StationID : Nat
  deriving DecidableEq, Repr

/-- Record `Station` of models.go: `ID` is `uint64`. -/
structure Station where
  ID : Nat
  Name : String
  deriving DecidableEq, Repr

/-- Record `StationProduct` of models.go: `ID`, `StationID`, `ProductID` are `uint64`. -/
structure StationProduct where
  ID : Nat
  StationID : Nat
  ProductID : Nat
  deriving DecidableEq, Repr

/-- Constant `RoleSales` of models.go. -/
def RoleSales : Nat := 0

/-- Constant `RoleStation` of models.go. -/
def RoleStation : Nat := 1

/-- The values a `User` can hold, by the field types of models.go. -/
def User.inRange (u : User) : Prop :=
  u.ID < uint64Size ∧ u.StationID < uint8Size

/-- The values a `Station` can hold, by the field types of models.go. -/
def Station.inRange (st : Station) : Prop :=
  st.ID < uint64Size

/-- The values a `StationProduct` can hold, by the field types of models.go. -/
def StationProduct.inRange (sp : StationProduct) : Prop :=
  sp.ID < uint64Size ∧ sp.StationID < uint64Size ∧ sp.ProductID < uint64Size

/-! ## The core behind the handlers (package `core`, not among the sources) -/

/-- Modelled from the spec: the fulfilment status of an order line, `Pending` or
`Fulfilled` (section 3); the body of package `core` that interprets the
`Fulfilled` column is missing. -/
inductive LineStatus where
  | Pending
  | Fulfilled
  deriving DecidableEq, Repr

/-- Modelled from the spec: the status of a line read off its `Fulfilled` column,
whose default 0 is the initial `Pending`; the reading code of package `core` is
missing. -/
def OrderProduct.status (l : OrderProduct) : LineStatus :=
  if l.Fulfilled = 0 then .Pending else .Fulfilled

/-- Modelled from the spec: the aggregate status of an order, `Complete` or
`InProgress` (section 4.2); its computation in package `core` is missing. -/
inductive AggregateStatus where
  | InProgress
  | Complete
  deriving DecidableEq, Repr

/-- Modelled from the spec: the failures of section 7; the error values of
package `core` are missing. -/
inductive CoreError where
  | Conflict
  | NotFound
  | InvalidArgument
  deriving DecidableEq, Repr

/-- Modelled from the spec: the event kinds of section 3 with the payloads of
section 6; the bus payloads of package `core` are missing. -/
inductive Event where
  | ProductCreated (p : Product)
  | ProductUpdated (p : Product)
  | ProductDiscontinued (id : Nat)
  | OrderCreated (o : Order)
  | OrderUpdated (id : Nat) (aggregateStatus : AggregateStatus)
  | OrderProductFulfilled (orderId productId : Nat) (aggregateStatus : AggregateStatus)
  | OrderCancelled (orderId : Nat)
  deriving DecidableEq, Repr

/-- Modelled from the spec: the Domain Store with the events published on the
bus so far, in publish order (sections 2 and 4.1); the `DB` and `Bus` fields of
the handler structs of package `core` are missing. -/
structure Store where
  products : List Product
  orders : List Order
  nextOrderID : Nat
  nextLineID : Nat
  published : List Event
  deriving DecidableEq, Repr

/-- Modelled from the spec: "`Complete` iff every line is `Fulfilled`, else
`InProgress`", computed from the full line set (section 4.2); the computation
in package `core` is missing. -/
def aggregateStatus (o : Order) : AggregateStatus :=
  if o.OrderProducts.all (fun l => decide (l.status = .Fulfilled)) then .Complete
  else .InProgress

/-- Change the first element of a list that satisfies `p`. -/
def updateFirst {α : Type} (p : α → Bool) (f : α → α) : List α → List α
  | [] => []
  | x :: xs => if p x then f x :: xs else x :: updateFirst p f xs

/-- Modelled from the spec: the order with the given identity, as the Domain
Store returns it; the query of package `core` is missing. -/
def Store.findOrder (s : Store) (orderId : Nat) : Option Order :=
  s.orders.find? (fun o => o.ID == orderId)

/-- Modelled from the spec: the order line that `(orderId, productId)`
references, the order's first line for that product; the query of package
`core` is missing. -/
def Order.findLine (o : Order) (productId : Nat) : Option OrderProduct :=
  o.OrderProducts.find? (fun l => l.ProductID == productId)

/-- Modelled from the spec: `markFulfilled(orderId, productId)` of section 4.2
(`OrderHandlers.UpdateFulfilled` of package `core` is missing). The referenced
line must exist (`NotFound` otherwise) and be `Pending` (`Conflict` otherwise);
on success the line becomes `Fulfilled`, the aggregate status is computed from
the order's updated line set and one `OrderProductFulfilled` event is
published. A failed call leaves the store as it was. -/
def markFulfilled (s : Store) (orderId productId : Nat) :
    Store × Except CoreError AggregateStatus :=
  match s.findOrder orderId with
  | none => (s, .error .NotFound)
  | some o =>
    match o.findLine productId with
    | none => (s, .error .NotFound)
    | some l =>
      if l.status = .Fulfilled then (s, .error .Conflict)
      else
        let lines := updateFirst (fun x => x.ProductID == productId)
          (fun x => { x with Fulfilled := 1 }) o.OrderProducts
        let o1 : Order := { o with OrderProducts := lines }
        let st := aggregateStatus o1
        ({ s with
            orders := updateFirst (fun x => x.ID == orderId) (fun _ => o1) s.orders,
            published := s.published ++ [.OrderProductFulfilled orderId productId st] },
          .ok st)

/-- Modelled from the spec: the lines of a new order, one `Pending` line per
requested product id, numbered from `lineId`; the construction in package
`core` is missing. -/
def newLines (orderId : Nat) : Nat → List Nat → List OrderProduct
  | _, [] => []
  | lineId, pid :: rest =>
    { ID := lineId, ProductID := pid, OrderID := orderId, Fulfilled := 0 } ::
      newLines orderId (lineId + 1) rest

/-- Modelled from the spec: `createOrder(lines)` of section 4.2
(`OrderHandlers.CreateOrder` of package `core` is missing). The quantity-expanded
list of product ids must be non-empty (`InvalidArgument`) and each id must name
an existing product (`NotFound`) that is not discontinued (the spec names no
error for a discontinued product; `InvalidArgument` is used); the order and its
lines are stored as one unit and `OrderCreated` is published. -/
def createOrder (s : Store) (productIds : List Nat) : Store × Except CoreError Order :=
  if productIds = [] then (s, .error .InvalidArgument)
  else if productIds.any (fun pid => !(s.products.any (fun p => p.ID == pid))) then
    (s, .error .NotFound)
  else if productIds.any
      (fun pid => s.products.any (fun p => p.ID == pid && p.Discontinued != 0)) then
    (s, .error .InvalidArgument)
  else
    let o : Order :=
      { ID := s.nextOrderID, Cancelled := 0,
        OrderProducts := newLines s.nextOrderID s.nextLineID productIds }
    ({ s with
        orders := s.orders ++ [o],
        nextOrderID := s.nextOrderID + 1,
        nextLineID := s.nextLineID + productIds.length,
        published := s.published ++ [.OrderCreated o] },
      .ok o)

/-- Modelled from the spec: `cancel(orderId)` of section 4.2
(`OrderHandlers.ToggleOrder` of package `core`, which main.go registers for
`DELETE /api/order/:orderId`, is missing). An unknown order is `NotFound`;
cancelling a cancelled order is a no-op that succeeds; otherwise the order's
`Cancelled` flag is set, line statuses are kept, and `OrderCancelled` is
published. -/
def cancel (s : Store) (orderId : Nat) : Store × Except CoreError Unit :=
  match s.findOrder orderId with
  | none => (s, .error .NotFound)
  | some o =>
    if o.Cancelled ≠ 0 then (s, .ok ())
    else
      ({ s with
          orders := updateFirst (fun x => x.ID == orderId)
            (fun x => { x with Cancelled := 1 }) s.orders,
          published := s.published ++ [.OrderCancelled orderId] },
        .ok ())

/-- Modelled from the spec: the store a run starts from, a catalogue and no
orders; the start-up of package `core` is missing. -/
def Store.init (products : List Product) : Store :=
  { products := products, orders := [], nextOrderID := 1, nextLineID := 1, published := [] }

/-- Modelled from the spec: the stores reachable from an empty order book by
order creation, fulfilment transitions and cancellation, each an atomic step
(sections 4.2 and 5); the handlers of package `core` are missing. -/
inductive Reachable : Store → Prop where
  | init (products : List Product) : Reachable (Store.init products)
  | createOrder (s : Store) (productIds : List Nat) :
      Reachable s → Reachable (createOrder s productIds).1
  | markFulfilled (s : Store) (orderId productId : Nat) :
      Reachable s → Reachable (markFulfilled s orderId productId).1
  | cancel (s : Store) (orderId : Nat) :
      Reachable s → Reachable (cancel s orderId).1

/-- Modelled from the spec: the role of an authorization scope, `Sales`,
`Station`, or the admin dashboard (sections 3 and 4.4); the scope type of
package `core` is missing. -/
inductive Role where
  | Sales
  | Station
  | Admin
  deriving DecidableEq, Repr

/-- Modelled from the spec: `AuthScope{role, stationId}` (sections 4.4 and 9);
the scope type of package `core` is missing. -/
structure AuthScope where
  role : Role
  stationId : Option Nat
  deriving DecidableEq, Repr

/-- Modelled from the spec: one live connection of the Subscriber Manager, its
handle, scope and outbound queue (section 4.4); the connection registry of
package `core` is missing. -/
structure Subscriber where
  handle : Nat
  scope : AuthScope
  queue : List Event
  deriving DecidableEq, Repr

/-- Modelled from the spec: the Station Router on a product-scoped event, "the
set of Station ids whose assignment set includes that product" (section 4.3);
the router of package `core` is missing. -/
def stationRouter (assignments : List StationProduct) (productId : Nat) : List Nat :=
  (assignments.filter (fun sp => sp.ProductID == productId)).map (fun sp => sp.StationID)

/-- Modelled from the spec: the subscription predicate of section 4.4, "Sales/admin
see everything; a Station-role user sees only events whose audience includes
their station"; the predicate of package `core` is missing. -/
def inAudience (scope : AuthScope) (audience : List Nat) : Bool :=
  match scope.role with
  | .Sales => true
  | .Admin => true
  | .Station =>
    match scope.stationId with
    | some st => audience.contains st
    | none => false

/-- Modelled from the spec: what publishing `ProductUpdated` for `p` does to one
registered subscriber, the event being appended to its queue when its scope is
in the audience (sections 4.3 and 4.4); the fan-out of package `core` is
missing. -/
def deliverProductUpdated (assignments : List StationProduct) (p : Product)
    (sub : Subscriber) : Subscriber :=
  if inAudience sub.scope (stationRouter assignments p.ID) then
    { sub with queue := sub.queue ++ [.ProductUpdated p] }
  else sub

/-- Modelled from the spec: `publish` of a `ProductUpdated` event over the
registered subscribers (sections 4.1 and 4.4); the fan-out of package `core` is
missing. -/
def publishProductUpdated (assignments : List StationProduct) (p : Product)
    (subs : List Subscriber) : List Subscriber :=
  subs.map (deliverProductUpdated assignments p)


/-! ## Lemmas on the gin context -/

theorem isAborted_abortWithStatus (c : Context) (code : Nat) :
    (c.AbortWithStatus code).IsAborted = true := by
  simp [Context.AbortWithStatus, Context.IsAborted]

theorem authHandler_keeps_request (unmarshal : Unmarshal) (isAdmin : Bool) (token : String)
    (c c1 : Context) (h : authHandler unmarshal isAdmin token c = some c1) :
    c1.userCookie = c.userCookie ∧ c1.xAuthToken = c.xAuthToken := by
  unfold authHandler at h
  simp only at h
  split at h
  · cases h; simp [Context.AbortWithStatus]
  · split at h
    · split at h
      · cases h
      · split at h
        · cases h; simp [Context.AbortWithStatus]
        · split at h <;> cases h <;> simp [Context.AbortWithStatus, Context.Next]
    · cases h; simp [Context.Next]

theorem runHandler_keeps_request (beh : Behaviour) (unmarshal : Unmarshal) (token : String)
    (h : HandlerFunc) (c c1 : Context)
    (hrun : runHandler beh unmarshal token h c = some c1) :
    c1.userCookie = c.userCookie ∧ c1.xAuthToken = c.xAuthToken := by
  cases h with
  | authHandler isAdmin => exact authHandler_keeps_request unmarshal isAdmin token c c1 hrun
  | named name =>
    simp only [runHandler] at hrun
    split at hrun <;> cases hrun <;> simp [Context.AbortWithStatus, Context.Next]

/-- The non-admin gate lets a request through only with the configured token in
the header or a session value that is neither nil nor the empty string. -/
theorem authHandler_false_admits (unmarshal : Unmarshal) (token : String) (c c1 : Context)
    (h : authHandler unmarshal false token c = some c1) (hna : c1.IsAborted = false) :
    c.GetHeader = token ∨ (c.userCookie ≠ Iface.nil ∧ c.userCookie ≠ Iface.str "") := by
  unfold authHandler at h
  simp only at h
  split at h
  · cases h
    rw [isAborted_abortWithStatus] at hna
    cases hna
  · rename_i hcond
    by_cases hh : c.GetHeader = token
    · exact Or.inl hh
    · right
      constructor
      · intro hnil
        apply hcond
        simp [hnil, hh]
      · intro hemp
        apply hcond
        simp [hemp, hh, Iface.eqEmptyString]

/-- A handler placed behind the non-admin gate runs only for admitted requests,
whatever the handlers in front of the gate do. -/
theorem runChain_behind_gate (beh : Behaviour) (unmarshal : Unmarshal) (token : String)
    (h : HandlerFunc) (hne : h ≠ HandlerFunc.authHandler false) :
    ∀ (pre : List HandlerFunc) (c : Context), h ∉ pre →
      h ∈ runChain beh unmarshal token (pre ++ [HandlerFunc.authHandler false, h]) c →
      c.GetHeader = token ∨ (c.userCookie ≠ Iface.nil ∧ c.userCookie ≠ Iface.str "") := by
  intro pre
  induction pre with
  | nil =>
    intro c _ hin
    simp only [List.nil_append, runChain, runHandler] at hin
    cases hrun : authHandler unmarshal false token c with
    | none =>
      rw [hrun] at hin
      simp at hin
      exact absurd hin hne
    | some c1 =>
      rw [hrun] at hin
      by_cases hab : c1.IsAborted = true
      · simp [hab] at hin
        exact absurd hin hne
      · exact authHandler_false_admits unmarshal token c c1 hrun (by simpa using hab)
  | cons g rest ih =>
    intro c hpre hin
    have hg : h ≠ g := fun e => hpre (by simp [e])
    have hrest : h ∉ rest := fun e => hpre (by simp [e])
    simp only [List.cons_append, runChain] at hin
    cases hrun : runHandler beh unmarshal token g c with
    | none =>
      rw [hrun] at hin
      simp at hin
      exact absurd hin hg
    | some c1 =>
      rw [hrun] at hin
      have hk := runHandler_keeps_request beh unmarshal token g c c1 hrun
      by_cases hab : c1.IsAborted = true
      · simp [hab] at hin
        exact absurd hin hg
      · simp only [hab] at hin
        simp only [Bool.false_eq_true, if_false, List.mem_cons] at hin
        rcases hin with hin | hin
        · exact absurd hin hg
        · have := ih c1 hrest hin
          simpa [Context.GetHeader, hk.1, hk.2] using this

/-! ## authHandler: the admission contract -/

/-- The decision of `authHandler` on a session value that is nil or a string. -/
theorem authHandler_decision (unmarshal : Unmarshal) (isAdmin : Bool)
    (configAuthToken : String) (c : Context) (hty : c.userCookie.nilOrString) :
    (admits unmarshal isAdmin configAuthToken c →
      authHandler unmarshal isAdmin configAuthToken c = some c.Next) ∧
    (¬ admits unmarshal isAdmin configAuthToken c →
      authHandler unmarshal isAdmin configAuthToken c =
        some (c.AbortWithStatus StatusForbidden)) := by
  refine ⟨?_, ?_⟩
  · intro hadm
    unfold authHandler
    rcases hadm with htok | ⟨hnil, hemp, hdec⟩
    · simp [htok]
    · have h1 : (c.userCookie == Iface.nil) = false := by simpa using hnil
      have h2 : c.userCookie.eqEmptyString = false := by
        cases hc : c.userCookie with
        | nil => exact absurd hc hnil
        | str s =>
          have : s ≠ "" := fun e => hemp (by rw [hc, e])
          simpa [Iface.eqEmptyString] using this
        | other t => rfl
      cases isAdmin with
      | false => simp [h1, h2]
      | true =>
        obtain ⟨text, user, hstr, hun, hadmin⟩ := hdec rfl
        by_cases htok : c.GetHeader = configAuthToken
        · simp [htok]
        · rw [hstr] at h1 h2
          simp [h1, h2, htok, hstr, Iface.assertString, hun, hadmin]
  · intro hnot
    unfold admits at hnot
    push_neg at hnot
    obtain ⟨htok, hrest⟩ := hnot
    unfold authHandler
    rcases hty with hnil | ⟨s, hstr⟩
    · simp [hnil, htok]
    · by_cases hs : s = ""
      · simp [hstr, hs, Iface.eqEmptyString, htok]
      · have hne : c.userCookie ≠ Iface.str "" := by
          rw [hstr]; intro e; injection e with e; exact hs e
        have hnn : c.userCookie ≠ Iface.nil := by rw [hstr]; intro e; cases e
        obtain ⟨hadm, hno⟩ := hrest hnn hne
        subst hadm
        cases hun : unmarshal s (some UserStruct.zero) with
        | none => simp [hstr, Iface.eqEmptyString, hs, htok, Iface.assertString, hun]
        | some user =>
          have hu : user.IsAdmin = false := by
            cases hb : user.IsAdmin with
            | false => rfl
            | true => exact absurd hb (hno s user hstr hun)
          simp [hstr, Iface.eqEmptyString, hs, htok, Iface.assertString, hun, hu]

/-- C1: for a session value that is nil or a string, `authHandler` makes exactly
one control call on the context: `Next` when the header equals the configured
token or the session value is neither nil nor empty and (for `isAdmin`) decodes
to a non-nil user with `IsAdmin`, and `AbortWithStatus(403)` in every other
case; it never makes both calls. -/
theorem C1_authHandler_cookie_or_token (unmarshal : Unmarshal) (isAdmin : Bool)
    (configAuthToken : String) (c : Context) (hty : c.userCookie.nilOrString) :
    (admits unmarshal isAdmin configAuthToken c →
      authHandler unmarshal isAdmin configAuthToken c = some c.Next) ∧
    (¬ admits unmarshal isAdmin configAuthToken c →
      authHandler unmarshal isAdmin configAuthToken c =
        some (c.AbortWithStatus StatusForbidden)) ∧
    c.Next.calls = c.calls ++ [Call.Next] ∧
    (c.AbortWithStatus StatusForbidden).calls = c.calls ++ [Call.AbortWithStatus 403] :=
  ⟨(authHandler_decision unmarshal isAdmin configAuthToken c hty).1,
    (authHandler_decision unmarshal isAdmin configAuthToken c hty).2, rfl, rfl⟩

/-- Witness for C1: an administrator cookie on an admin route without the token. -/
theorem C1_authHandler_cookie_or_token_witness :
    authHandler sampleUnmarshal true "tok" (Context.new (Iface.str "admin") none) =
      some (Context.new (Iface.str "admin") none).Next ∧
    authHandler sampleUnmarshal true "tok" (Context.new (Iface.str "user") none) =
      some ((Context.new (Iface.str "user") none).AbortWithStatus 403) := by
  constructor
  · exact (C1_authHandler_cookie_or_token sampleUnmarshal true "tok"
      (Context.new (Iface.str "admin") none) (Or.inr ⟨"admin", rfl⟩)).1
      (Or.inr ⟨by decide, by decide, fun _ => ⟨"admin", ⟨true⟩, rfl, by decide, rfl⟩⟩)
  · exact (C1_authHandler_cookie_or_token sampleUnmarshal true "tok"
      (Context.new (Iface.str "user") none) (Or.inr ⟨"user", rfl⟩)).2.1 (by
        intro hadm
        rcases hadm with h | ⟨_, _, h⟩
        · exact absurd h (by decide)
        · obtain ⟨text, user, ht, hu, ha⟩ := h rfl
          have : text = "user" := by
            have := ht.symm
            simp only [Context.new] at this
            injection this
          subst this
          have : user = ⟨false⟩ := by
            have h2 : sampleUnmarshal "user" (some UserStruct.zero) = some ⟨false⟩ := by decide
            rw [h2] at hu
            injection hu with hu
            exact hu.symm
          subst this
          cases ha)

/-- C8: a request whose header equals the configured token is admitted whatever
the session value and the `isAdmin` flag are; in particular, with an empty
configured token, a request with no `x-auth-token` header and no session `user`
value is admitted on plain and admin routes alike. -/
theorem C8_token_match_bypasses_session (unmarshal : Unmarshal) (isAdmin : Bool)
    (configAuthToken : String) (c : Context) :
    (c.GetHeader = configAuthToken →
      authHandler unmarshal isAdmin configAuthToken c = some c.Next) ∧
    (c.xAuthToken = none → c.userCookie = Iface.nil →
      authHandler unmarshal isAdmin "" c = some c.Next ∧
      c.Next.calls = c.calls ++ [Call.Next] ∧
      Call.AbortWithStatus StatusForbidden ∉ c.Next.calls.drop c.calls.length) := by
  have key : ∀ tok, c.GetHeader = tok → authHandler unmarshal isAdmin tok c = some c.Next := by
    intro tok h
    unfold authHandler
    simp [h]
  refine ⟨key configAuthToken, ?_⟩
  intro hnone _
  refine ⟨key "" (by simp [Context.GetHeader, hnone]), rfl, ?_⟩
  simp [Context.Next]

/-- C9: on a session value that is nil or a string `authHandler` never panics and
ends in exactly one of `AbortWithStatus(403)` and `Next`; the handler panics
exactly when the type assertion meets a non-string value, which needs
`isAdmin` and a header different from the token; a cookie the decoder leaves at
the zero user (malformed JSON) and a cookie decoded to the nil pointer (the JSON
literal `null`) both end in 403. -/
theorem C9_authHandler_total_on_typed_sessions (unmarshal : Unmarshal) (isAdmin : Bool)
    (configAuthToken : String) (c : Context) :
    (c.userCookie.nilOrString →
      authHandler unmarshal isAdmin configAuthToken c = some c.Next ∨
      authHandler unmarshal isAdmin configAuthToken c =
        some (c.AbortWithStatus StatusForbidden)) ∧
    (authHandler unmarshal isAdmin configAuthToken c = none ↔
      (∃ tag, c.userCookie = Iface.other tag) ∧ isAdmin = true ∧
        c.GetHeader ≠ configAuthToken) ∧
    (∀ text, c.userCookie = Iface.str text → isAdmin = true →
      c.GetHeader ≠ configAuthToken →
      (unmarshal text (some UserStruct.zero) = some UserStruct.zero ∨
        unmarshal text (some UserStruct.zero) = none) →
      authHandler unmarshal isAdmin configAuthToken c =
        some (c.AbortWithStatus StatusForbidden)) := by
  refine ⟨?_, ?_, ?_⟩
  · intro hty
    by_cases hadm : admits unmarshal isAdmin configAuthToken c
    · exact Or.inl ((authHandler_decision unmarshal isAdmin configAuthToken c hty).1 hadm)
    · exact Or.inr ((authHandler_decision unmarshal isAdmin configAuthToken c hty).2 hadm)
  · unfold authHandler
    cases hc : c.userCookie with
    | nil =>
      by_cases htok : c.GetHeader = configAuthToken <;> simp [htok]
    | str s =>
      by_cases htok : c.GetHeader = configAuthToken
      · simp [htok]
      · by_cases hs : s = ""
        · simp [htok, hs, Iface.eqEmptyString]
        · cases isAdmin
          · simp [htok, hs, Iface.eqEmptyString]
          · cases hun : unmarshal s (some UserStruct.zero) with
            | none => simp [htok, hs, Iface.eqEmptyString, Iface.assertString, hun]
            | some user =>
              cases hb : user.IsAdmin <;>
                simp [htok, hs, Iface.eqEmptyString, Iface.assertString, hun, hb]
    | other t =>
      by_cases htok : c.GetHeader = configAuthToken
      · simp [htok]
      · cases isAdmin <;> simp [htok, Iface.eqEmptyString, Iface.assertString]
  · intro text hstr hadm htok hdec
    subst hadm
    unfold authHandler
    by_cases hs : text = ""
    · simp [hstr, hs, Iface.eqEmptyString, htok]
    · rcases hdec with hz | hn
      · simp only [hstr, Iface.assertString, hz]
        simp [hs, Iface.eqEmptyString, htok, UserStruct.zero]
      · simp [hstr, hs, Iface.eqEmptyString, htok, Iface.assertString, hn]

/-! ## The route table -/

/-- What the gate does guarantee on the push routes: each of the three push
handlers is registered only on its GET route, with `authHandler(false,
adminAuthToken)` directly in front of it, and, whatever the other handlers of
the chain do, it is invoked only if the header value that `GetHeader` reads
(the empty string for an absent header) equals the configured token or the
session `user` value is neither nil nor the empty string. -/
theorem push_handlers_behind_gate (beh : Behaviour) (unmarshal : Unmarshal)
    (configAuthToken : String) (userCookie : Iface) (xAuthToken : Option String)
    (r : Route) (h : HandlerFunc)
    (hr : r ∈ mainRouter.routes) (hh : h ∈ pushHandlers) (hin : h ∈ r.handlers) :
    r.handlers = [HandlerFunc.authHandler false, h] ∧
    (r.method, r.path, h) ∈
      [("GET", "/api/products/ws", HandlerFunc.named "productHandlers.ProductUpdateWS"),
       ("GET", "/api/products/stream",
          HandlerFunc.named "productHandlers.ProductUpdateStream"),
       ("GET", "/api/orders/stream", HandlerFunc.named "orderHandlers.OrderStream")] ∧
    (h ∈ runChain beh unmarshal configAuthToken r.chain (Context.new userCookie xAuthToken) →
      xAuthToken.getD "" = configAuthToken ∨
        (userCookie ≠ Iface.nil ∧ userCookie ≠ Iface.str "")) := by
  have table : ∀ r ∈ mainRouter.routes, ∀ h ∈ pushHandlers, h ∈ r.handlers →
      r.handlers = [HandlerFunc.authHandler false, h] ∧ h ∉ r.middleware ∧
      (r.method, r.path, h) ∈
        [("GET", "/api/products/ws", HandlerFunc.named "productHandlers.ProductUpdateWS"),
         ("GET", "/api/products/stream",
            HandlerFunc.named "productHandlers.ProductUpdateStream"),
         ("GET", "/api/orders/stream", HandlerFunc.named "orderHandlers.OrderStream")] := by
    decide
  obtain ⟨hhs, hmw, hrow⟩ := table r hr h hh hin
  refine ⟨hhs, hrow, ?_⟩
  intro hrun
  have hne : h ≠ HandlerFunc.authHandler false := by
    intro e
    rw [e] at hh
    revert hh
    decide
  rw [Route.chain, hhs] at hrun
  exact runChain_behind_gate beh unmarshal configAuthToken h hne r.middleware
    (Context.new userCookie xAuthToken) hmw hrun

/-- C2 (evaluation at the failing input): each of the three push endpoints is
registered as a GET route with `authHandler(false, adminAuthToken)` directly in
front of its handler, yet with an empty configured token a request that carries
no `x-auth-token` header and no session `user` value is let through by the gate
(`Next`, no 403) and the push handler of each of the three routes is invoked. -/
theorem C2_push_endpoints_open_on_empty_token :
    authHandler sampleUnmarshal false "" (Context.new Iface.nil none) =
      some (Context.new Iface.nil none).Next ∧
    (∃ r ∈ mainRouter.routes, r.method = "GET" ∧ r.path = "/api/products/ws" ∧
      r.handlers =
        [HandlerFunc.authHandler false, HandlerFunc.named "productHandlers.ProductUpdateWS"] ∧
      HandlerFunc.named "productHandlers.ProductUpdateWS" ∈
        runChain passBehaviour sampleUnmarshal "" r.chain (Context.new Iface.nil none)) ∧
    (∃ r ∈ mainRouter.routes, r.method = "GET" ∧ r.path = "/api/products/stream" ∧
      r.handlers =
        [HandlerFunc.authHandler false,
          HandlerFunc.named "productHandlers.ProductUpdateStream"] ∧
      HandlerFunc.named "productHandlers.ProductUpdateStream" ∈
        runChain passBehaviour sampleUnmarshal "" r.chain (Context.new Iface.nil none)) ∧
    (∃ r ∈ mainRouter.routes, r.method = "GET" ∧ r.path = "/api/orders/stream" ∧
      r.handlers =
        [HandlerFunc.authHandler false, HandlerFunc.named "orderHandlers.OrderStream"] ∧
      HandlerFunc.named "orderHandlers.OrderStream" ∈
        runChain passBehaviour sampleUnmarshal "" r.chain (Context.new Iface.nil none)) := by
  refine ⟨by decide, by decide, by decide, by decide⟩

/-- C10: in the route table built by `main`, every route under `/api` with
method POST, PUT or DELETE has an `authHandler` closure as its first handler,
and the `/api` routes with no `authHandler` among their handlers are exactly
the three GET routes `/api/order/:orderId/pub`, `/api/product/types` and
`/api/printers`. -/
theorem C10_api_routes_auth_coverage :
    (∀ r ∈ mainRouter.routes, underApi r.path = true →
      r.method ∈ ["POST", "PUT", "DELETE"] →
      ∃ isAdmin, r.handlers.head? = some (HandlerFunc.authHandler isAdmin)) ∧
    (∀ r ∈ mainRouter.routes, underApi r.path = true →
      ((∀ h ∈ r.handlers, h.isAuth = false) ↔
        (r.method = "GET" ∧
          r.path ∈ ["/api/order/:orderId/pub", "/api/product/types", "/api/printers"]))) ∧
    (∀ p ∈ ["/api/order/:orderId/pub", "/api/product/types", "/api/printers"],
      ∃ r ∈ mainRouter.routes, r.method = "GET" ∧ r.path = p ∧ underApi r.path = true) := by
  refine ⟨by decide, by decide, by decide⟩

/-! ## Lemmas on `updateFirst` -/

theorem updateFirst_length {α : Type} (p : α → Bool) (f : α → α) (l : List α) :
    (updateFirst p f l).length = l.length := by
  induction l with
  | nil => rfl
  | cons x xs ih =>
    simp only [updateFirst]
    split <;> simp [ih]

theorem mem_updateFirst {α : Type} (p : α → Bool) (f : α → α) (l : List α) (y : α)
    (hy : y ∈ updateFirst p f l) : y ∈ l ∨ ∃ x ∈ l, p x = true ∧ y = f x := by
  induction l with
  | nil => simp [updateFirst] at hy
  | cons x xs ih =>
    simp only [updateFirst] at hy
    split at hy
    · rename_i hp
      rcases List.mem_cons.mp hy with h | h
      · exact Or.inr ⟨x, by simp, hp, h⟩
      · exact Or.inl (by simp [h])
    · rcases List.mem_cons.mp hy with h | h
      · exact Or.inl (by simp [h])
      · rcases ih h with h1 | ⟨z, hz, hpz, hyz⟩
        · exact Or.inl (by simp [h1])
        · exact Or.inr ⟨z, by simp [hz], hpz, hyz⟩

theorem find_updateFirst {α : Type} (p : α → Bool) (f : α → α)
    (hp : ∀ x, p x = true → p (f x) = true) (l : List α) :
    (updateFirst p f l).find? p = (l.find? p).map f := by
  induction l with
  | nil => rfl
  | cons x xs ih =>
    simp only [updateFirst]
    by_cases hx : p x = true
    · simp [hx, hp x hx, List.find?]
    · simp [hx, List.find?, ih]

/-! ## The fulfilment state machine -/

theorem aggregateStatus_complete_iff (o : Order) :
    aggregateStatus o = AggregateStatus.Complete ↔
      ∀ l ∈ o.OrderProducts, l.status = LineStatus.Fulfilled := by
  unfold aggregateStatus
  split
  · rename_i h
    simpa using h
  · rename_i h
    simp only [false_iff, reduceCtorEq]
    intro hall
    apply h
    simpa using hall

theorem newLines_ne_nil (orderId lineId : Nat) (pids : List Nat) (h : pids ≠ []) :
    newLines orderId lineId pids ≠ [] := by
  cases pids with
  | nil => exact absurd rfl h
  | cons p ps => simp [newLines]

theorem ne_nil_of_length_eq {α : Type} (l1 l2 : List α) (h : l1.length = l2.length)
    (hne : l2 ≠ []) : l1 ≠ [] := by
  intro e
  apply hne
  rw [e] at h
  exact List.length_eq_zero.mp h.symm

/-- Every order of a reachable store has at least one line. -/
theorem reachable_orders_nonempty (s : Store) (hs : Reachable s) :
    ∀ o ∈ s.orders, o.OrderProducts ≠ [] := by
  induction hs with
  | init products => intro o ho; simp [Store.init] at ho
  | createOrder s pids _ ih =>
    intro o ho
    unfold PosSystem.createOrder at ho
    split at ho
    · exact ih o ho
    · split at ho
      · exact ih o ho
      · split at ho
        · exact ih o ho
        · rename_i hne _ _
          simp only [List.mem_append, List.mem_singleton] at ho
          rcases ho with ho | ho
          · exact ih o ho
          · rw [ho]
            exact newLines_ne_nil _ _ _ hne
  | markFulfilled s orderId productId _ ih =>
    intro o ho
    unfold PosSystem.markFulfilled at ho
    split at ho
    · exact ih o ho
    · rename_i o0 hfind
      split at ho
      · exact ih o ho
      · split at ho
        · exact ih o ho
        · simp only at ho
          rcases mem_updateFirst _ _ _ _ ho with h | ⟨x, _, _, hx⟩
          · exact ih o h
          · rw [hx]
            have hmem : o0 ∈ s.orders := List.mem_of_find?_eq_some hfind
            exact ne_nil_of_length_eq _ _ (updateFirst_length _ _ _) (ih o0 hmem)
  | cancel s orderId _ ih =>
    intro o ho
    unfold PosSystem.cancel at ho
    split at ho
    · exact ih o ho
    · split at ho
      · exact ih o ho
      · simp only at ho
        rcases mem_updateFirst _ _ _ _ ho with h | ⟨x, hxm, _, hx⟩
        · exact ih o h
        · rw [hx]
          exact ih x hxm

/-- A successful `markFulfilled` reports, and publishes, the status derived from
the order as stored after the transition. -/
theorem markFulfilled_reports_derived (s : Store) (orderId productId : Nat)
    (st : AggregateStatus) (h : (markFulfilled s orderId productId).2 = Except.ok st) :
    ∃ o1, (markFulfilled s orderId productId).1.findOrder orderId = some o1 ∧
      aggregateStatus o1 = st ∧
      (markFulfilled s orderId productId).1.published =
        s.published ++ [Event.OrderProductFulfilled orderId productId st] := by
  unfold markFulfilled at h ⊢
  split at h
  · cases h
  · rename_i o hfind
    split at h
    · cases h
    · rename_i l hline
      split at h
      · cases h
      · rename_i hst
        simp only [hfind, hline, hst, if_false]
        simp only at h
        injection h with h
        refine ⟨_, ?_, h, ?_⟩
        · simp only [Store.findOrder]
          rw [find_updateFirst]
          · simp only [Store.findOrder] at hfind
            rw [hfind]
            rfl
          · intro x hx
            have := List.find?_some hfind
            simpa using this
        · rw [h]

/-- C3: in every store reachable from an empty order book by order creation,
`markFulfilled` and cancellation, every order's aggregate status is the pure
function of its lines: `Complete` exactly when every line is `Fulfilled`,
`InProgress` exactly when some line is `Pending`; the order has at least one
line, and a successful `markFulfilled` reports and publishes the status derived
from the order as stored after the transition. -/
theorem C3_aggregate_status_derived (s : Store) (hs : Reachable s) (o : Order)
    (ho : o ∈ s.orders) :
    (aggregateStatus o = AggregateStatus.Complete ↔
      ∀ l ∈ o.OrderProducts, l.status = LineStatus.Fulfilled) ∧
    (aggregateStatus o = AggregateStatus.InProgress ↔
      ∃ l ∈ o.OrderProducts, l.status = LineStatus.Pending) ∧
    o.OrderProducts ≠ [] ∧
    (∀ orderId productId st, (markFulfilled s orderId productId).2 = Except.ok st →
      ∃ o1, (markFulfilled s orderId productId).1.findOrder orderId = some o1 ∧
        aggregateStatus o1 = st ∧
        (markFulfilled s orderId productId).1.published =
          s.published ++ [Event.OrderProductFulfilled orderId productId st]) := by
  refine ⟨aggregateStatus_complete_iff o, ?_, reachable_orders_nonempty s hs o ho,
    fun orderId productId st h => markFulfilled_reports_derived s orderId productId st h⟩
  have hc := aggregateStatus_complete_iff o
  constructor
  · intro hin
    by_contra hno
    push_neg at hno
    have hall : ∀ l ∈ o.OrderProducts, l.status = LineStatus.Fulfilled := by
      intro l hl
      cases hs : l.status with
      | Pending => exact absurd hs (hno l hl)
      | Fulfilled => rfl
    rw [hc.mpr hall] at hin
    cases hin
  · rintro ⟨l, hl, hp⟩
    cases hag : aggregateStatus o with
    | InProgress => rfl
    | Complete =>
      have := hc.mp hag l hl
      rw [hp] at this
      cases this

/-- Witness for C3: the order of the two-line scenario after one fulfilment. -/
theorem C3_aggregate_status_derived_witness :
    aggregateStatus ⟨1, 0, [⟨1, 1, 1, 1⟩, ⟨2, 2, 1, 0⟩]⟩ = AggregateStatus.InProgress ↔
      ∃ l ∈ [(⟨1, 1, 1, 1⟩ : OrderProduct), ⟨2, 2, 1, 0⟩], l.status = LineStatus.Pending :=
  (C3_aggregate_status_derived
    (markFulfilled (createOrder (Store.init [⟨1, "a", 0, 0, 0⟩, ⟨2, "b", 0, 0, 0⟩]) [1, 2]).1
      1 1).1
    (Reachable.markFulfilled _ 1 1 (Reachable.createOrder _ [1, 2] (Reachable.init _)))
    ⟨1, 0, [⟨1, 1, 1, 1⟩, ⟨2, 2, 1, 0⟩]⟩ (by decide)).2.1

/-- C4: when the line that `(orderId, productId)` references is already
`Fulfilled`, `markFulfilled` fails with `Conflict`, the store (hence the line's
status) is unchanged and nothing is published. -/
theorem C4_markFulfilled_conflict (s : Store) (orderId productId : Nat) (o : Order)
    (l : OrderProduct) (ho : s.findOrder orderId = some o)
    (hl : o.findLine productId = some l) (hf : l.status = LineStatus.Fulfilled) :
    (markFulfilled s orderId productId).2 = Except.error CoreError.Conflict ∧
    (markFulfilled s orderId productId).1 = s ∧
    (markFulfilled s orderId productId).1.published = s.published ∧
    ((markFulfilled s orderId productId).1.findOrder orderId).bind
      (fun o1 => o1.findLine productId) = some l := by
  have h : markFulfilled s orderId productId = (s, Except.error CoreError.Conflict) := by
    unfold markFulfilled
    simp [ho, hl, hf]
  rw [h]
  simp [ho, hl]

/-- Witness for C4: the repeated tap of the two-line scenario. -/
theorem C4_markFulfilled_conflict_witness :
    (markFulfilled
      (markFulfilled (createOrder (Store.init [⟨1, "a", 0, 0, 0⟩]) [1]).1 1 1).1 1 1).2 =
        Except.error CoreError.Conflict :=
  (C4_markFulfilled_conflict
    (markFulfilled (createOrder (Store.init [⟨1, "a", 0, 0, 0⟩]) [1]).1 1 1).1 1 1
    ⟨1, 0, [⟨1, 1, 1, 1⟩]⟩ ⟨1, 1, 1, 1⟩ (by decide) (by decide) (by decide)).1

/-- C5: publishing `ProductUpdated` for a product hands the event to a
registered subscriber exactly when its scope is in the audience: always for the
Sales and admin roles, and for a Station-role subscriber if and only if some
`StationProduct` links its station to the product; every other subscriber is
left as it was, and the registry keeps its subscribers in place. -/
theorem C5_product_updated_audience (assignments : List StationProduct) (p : Product)
    (subs : List Subscriber) :
    (publishProductUpdated assignments p subs).length = subs.length ∧
    (∀ (i : Nat) (sub : Subscriber), subs[i]? = some sub →
      (publishProductUpdated assignments p subs)[i]? =
        some (deliverProductUpdated assignments p sub)) ∧
    (∀ sub : Subscriber,
      ((sub.scope.role = Role.Sales ∨ sub.scope.role = Role.Admin ∨
          (sub.scope.role = Role.Station ∧
            ∃ sp ∈ assignments, sp.ProductID = p.ID ∧ sub.scope.stationId = some sp.StationID)) →
        deliverProductUpdated assignments p sub =
          { sub with queue := sub.queue ++ [Event.ProductUpdated p] }) ∧
      (¬ (sub.scope.role = Role.Sales ∨ sub.scope.role = Role.Admin ∨
          (sub.scope.role = Role.Station ∧
            ∃ sp ∈ assignments, sp.ProductID = p.ID ∧ sub.scope.stationId = some sp.StationID)) →
        deliverProductUpdated assignments p sub = sub)) := by
  refine ⟨by simp [publishProductUpdated], ?_, ?_⟩
  · intro i sub hi
    simp [publishProductUpdated, hi]
  · intro sub
    have key : inAudience sub.scope (stationRouter assignments p.ID) = true ↔
        (sub.scope.role = Role.Sales ∨ sub.scope.role = Role.Admin ∨
          (sub.scope.role = Role.Station ∧
            ∃ sp ∈ assignments, sp.ProductID = p.ID ∧
              sub.scope.stationId = some sp.StationID)) := by
      unfold inAudience stationRouter
      cases hr : sub.scope.role with
      | Sales => simp
      | Admin => simp
      | Station =>
        cases hst : sub.scope.stationId with
        | none => simp
        | some st =>
          simp only [List.contains_eq_any_beq, List.any_eq_true, List.mem_map, List.mem_filter,
            beq_iff_eq, reduceCtorEq, false_or, true_and, Option.some.injEq]
          constructor
          · rintro ⟨x, ⟨sp, ⟨hsp, hpid⟩, hx⟩, hxs⟩
            exact ⟨sp, hsp, hpid, by rw [hxs, ← hx]⟩
          · rintro ⟨sp, hsp, hpid, hs⟩
            exact ⟨sp.StationID, ⟨sp, ⟨hsp, hpid⟩, rfl⟩, hs⟩
    constructor
    · intro h
      simp [deliverProductUpdated, key.mpr h]
    · intro h
      have : inAudience sub.scope (stationRouter assignments p.ID) = false := by
        cases hb : inAudience sub.scope (stationRouter assignments p.ID) with
        | false => rfl
        | true => exact absurd (key.mp hb) h
      simp [deliverProductUpdated, this]

/-- C6: `cancel` is idempotent: a second cancel leaves the store as the first
one left it; on a known order the first cancel leaves `Cancelled` set and the
second succeeds without changing anything or publishing again; cancelling an
order that is already cancelled is a successful no-op. -/
theorem C6_cancel_idempotent (s : Store) (orderId : Nat) :
    (cancel (cancel s orderId).1 orderId).1 = (cancel s orderId).1 ∧
    (∀ o, s.findOrder orderId = some o →
      (∃ o1, (cancel s orderId).1.findOrder orderId = some o1 ∧ o1.Cancelled ≠ 0) ∧
      (cancel s orderId).2 = Except.ok () ∧
      cancel (cancel s orderId).1 orderId = ((cancel s orderId).1, Except.ok ())) ∧
    (∀ o, s.findOrder orderId = some o → o.Cancelled ≠ 0 →
      cancel s orderId = (s, Except.ok ())) := by
  have noop : ∀ (t : Store) (o : Order), t.findOrder orderId = some o → o.Cancelled ≠ 0 →
      cancel t orderId = (t, Except.ok ()) := by
    intro t o ho hc
    unfold cancel
    simp [ho, hc]
  have after : ∀ o, s.findOrder orderId = some o →
      ∃ o1, (cancel s orderId).1.findOrder orderId = some o1 ∧ o1.Cancelled ≠ 0 := by
    intro o ho
    by_cases hc : o.Cancelled = 0
    · refine ⟨{ o with Cancelled := 1 }, ?_, by simp⟩
      unfold cancel
      simp only [ho, hc, ne_eq, not_true_eq_false, if_false]
      simp only [Store.findOrder]
      rw [find_updateFirst]
      · simp only [Store.findOrder] at ho
        rw [ho]
        rfl
      · intro x hx
        exact hx
    · exact ⟨o, by rw [noop s o ho hc]; exact ho, hc⟩
  refine ⟨?_, ?_, noop s⟩
  · cases ho : s.findOrder orderId with
    | none =>
      have h1 : cancel s orderId = (s, Except.error CoreError.NotFound) := by
        unfold cancel
        simp [ho]
      rw [h1]
      simp only
      rw [h1]
    | some o =>
      obtain ⟨o1, h1, hc1⟩ := after o ho
      rw [noop _ o1 h1 hc1]
  · intro o ho
    obtain ⟨o1, h1, hc1⟩ := after o ho
    refine ⟨⟨o1, h1, hc1⟩, ?_, noop _ o1 h1 hc1⟩
    unfold cancel
    simp only [ho]
    split <;> rfl

/-- C7 (evaluation of the record types): a `Station.ID` of 256 is a value the
`uint64` field can take, and `StationProduct.StationID` can hold it, but no
`User` can: `User.StationID` is `uint8`, and converting 256 to it yields 0. -/
theorem C7_user_station_id_truncates :
    Station.inRange ⟨256, "grill"⟩ ∧
    StationProduct.inRange ⟨1, (⟨256, "grill"⟩ : Station).ID, 1⟩ ∧
    (∀ u : User, u.inRange → u.StationID ≠ (⟨256, "grill"⟩ : Station).ID) ∧
    toUint8 (⟨256, "grill"⟩ : Station).ID = 0 := by
  refine ⟨by simp [Station.inRange, uint64Size], by simp [StationProduct.inRange, uint64Size],
    ?_, by simp [toUint8, uint8Size]⟩
  intro u hu heq
  have h := hu.2
  rw [heq] at h
  simp [uint8Size] at h

end PosSystem
